import Mathlib

/-!
Verification of the PPG signal-conditioning and feature-extraction pipeline
of `app.py` (functions `butter_bandpass_filter`, `extract_time_domain_features`,
`extract_frequency_domain_features`, `extract_ppg_specific_features`,
`extract_ppg_features`, `extract_features`, and the `/predict` route).

Modelling conventions:
* Floating-point samples are modelled as exact rationals (`ℚ`); float literals
  of the source (`1e-8`, `0.5`) denote the corresponding rationals.
* numpy's NaN ("missing" sentinel) is modelled as `none` in `Option ℚ`.
* The pipeline always processes a single waveform (the request reshapes the
  signal to one row), so the batched numpy functions are embedded at the level
  of that single row.
* Genuinely transcendental numerics (square root, natural logarithm, the Welch
  periodogram, Butterworth coefficient design, `lfilter_zi`, and float `round`)
  are abstracted as an `Oracles` bundle of unconstrained functions; every
  theorem below holds for all interpretations of these oracles, and witnesses
  instantiate them with concrete dummies.
* Python exceptions in the embedded fragment are modelled with `Except`.
-/

set_option maxRecDepth 40000

/-- The literal `1e-8` used by the source for numerical guards. -/
def eps : ℚ := 1 / 100000000

/-- `np.mean` of a one-dimensional array (a single row). -/
def qmean (l : List ℚ) : ℚ := l.sum / l.length

/-- `np.min` of a nonempty one-dimensional array (`0` on the empty array,
which the source never reaches: numpy raises there). -/
def listMin : List ℚ → ℚ
  | [] => 0
  | h :: t => t.foldl min h

/-- `np.max` of a nonempty one-dimensional array (`0` on the empty array). -/
def listMax : List ℚ → ℚ
  | [] => 0
  | h :: t => t.foldl max h

/-- `np.diff` of a rational-valued array. -/
def pairDiffsQ (l : List ℚ) : List ℚ := List.zipWith (fun a b => b - a) l l.tail

/-- `np.diff` of an array of indices, as rationals. -/
def natDiffs (l : List ℕ) : List ℚ := List.zipWith (fun a b => (b : ℚ) - (a : ℚ)) l l.tail

/-!  scipy.signal.find_peaks.

`_local_maxima_1d` scans indices `1 ≤ i < len-1`; on a strict rise it skips a
plateau of equal samples and records the plateau midpoint if the sample after
the plateau is strictly smaller, resuming the scan after the plateau.  The
`distance` condition then greedily keeps peaks in decreasing order of height
(ties resolved by sort position) and discards peaks closer than `⌈distance⌉`.
-/

/-- Plateau scan of `_local_maxima_1d`: starting at `j`, advance while the
sample equals `v` and `j < iMax` (fuel-bounded while loop). -/
def lmAhead (x : List ℚ) (iMax : ℕ) (v : ℚ) : ℕ → ℕ → ℕ
  | 0, j => j
  | f + 1, j => if j < iMax ∧ x.getD j 0 = v then lmAhead x iMax v f (j + 1) else j

/-- Main scan loop of `_local_maxima_1d` (fuel-bounded; the fuel passed by
`localMaxima` dominates the number of iterations). -/
def lmLoop (x : List ℚ) (iMax : ℕ) : ℕ → ℕ → List ℕ
  | 0, _ => []
  | f + 1, i =>
    if i < iMax then
      if x.getD (i - 1) 0 < x.getD i 0 then
        if x.getD (lmAhead x iMax (x.getD i 0) (x.length + 1) (i + 1)) 0 < x.getD i 0 then
          (i + (lmAhead x iMax (x.getD i 0) (x.length + 1) (i + 1) - 1)) / 2 ::
            lmLoop x iMax f (lmAhead x iMax (x.getD i 0) (x.length + 1) (i + 1) + 1)
        else lmLoop x iMax f (i + 1)
      else lmLoop x iMax f (i + 1)
    else []

/-- `_local_maxima_1d(x)`: indices of interior local maxima (plateau midpoints),
in increasing order. -/
def localMaxima (x : List ℚ) : List ℕ := lmLoop x (x.length - 1) (x.length + 1) 1

/-- Stable insertion (ascending by height) used to model `np.argsort` of the
peak priorities.  (numpy's default sort is not stable on ties; tie order is
unobservable in every claim below.) -/
def insertByHeight (h : List ℚ) (i : ℕ) : List ℕ → List ℕ
  | [] => [i]
  | j :: js => if h.getD i 0 < h.getD j 0 then i :: j :: js else j :: insertByHeight h i js

/-- `np.argsort(priority)`: positions sorted by ascending priority. -/
def argsortQ (h : List ℚ) : List ℕ :=
  (List.range h.length).foldl (fun acc i => insertByHeight h i acc) []

/-- Left sweep of `_select_by_peak_distance`: clear `keep` for `k < j` while
`peaks[j] - peaks[k] < distance` (called with counter `j`). -/
def killL (pks : List ℕ) (dist : ℤ) (j : ℕ) : ℕ → List Bool → List Bool
  | 0, keep => keep
  | k + 1, keep =>
    if (pks.getD j 0 : ℤ) - (pks.getD k 0 : ℤ) < dist then
      killL pks dist j k (keep.set k false)
    else keep

/-- Right sweep of `_select_by_peak_distance`: clear `keep` for `k > j` while
`peaks[k] - peaks[j] < distance` (fuel-bounded). -/
def killR (pks : List ℕ) (dist : ℤ) (j : ℕ) : ℕ → ℕ → List Bool → List Bool
  | 0, _, keep => keep
  | f + 1, k, keep =>
    if k < pks.length ∧ (pks.getD k 0 : ℤ) - (pks.getD j 0 : ℤ) < dist then
      killR pks dist j f (k + 1) (keep.set k false)
    else keep

/-- Highest-priority-first elimination loop of `_select_by_peak_distance`. -/
def selectLoop (pks : List ℕ) (dist : ℤ) : List ℕ → List Bool → List Bool
  | [], keep => keep
  | j :: rest, keep =>
    if keep.getD j false then
      selectLoop pks dist rest (killR pks dist j pks.length (j + 1) (killL pks dist j j keep))
    else selectLoop pks dist rest keep

/-- Distance selection applied to an already-computed list of local maxima. -/
def findPeaksFrom (x : List ℚ) (d : ℚ) (mids : List ℕ) : List ℕ :=
  let dist : ℤ := ⌈d⌉
  let heights := mids.map fun i => x.getD i 0
  let keep := selectLoop mids dist (argsortQ heights).reverse (List.replicate mids.length true)
  (mids.enum.filter fun p => keep.getD p.1 false).map Prod.snd

/-- `scipy.signal.find_peaks(x, distance=d)` for a validated distance `d ≥ 1`
(scipy ceils a fractional distance). -/
def findPeaksDist (x : List ℚ) (d : ℚ) : List ℕ := findPeaksFrom x d (localMaxima x)

/-- `find_peaks` including scipy's argument validation: a distance `< 1`
raises `ValueError`. -/
def find_peaks_checked (x : List ℚ) (d : ℚ) : Except String (List ℕ) :=
  if d < 1 then Except.error "`distance` must be greater or equal to 1"
  else Except.ok (findPeaksDist x d)

/-!  Abstract transcendental numerics. -/

/-- Oracle bundle for the transcendental numerics of the source.  Every
theorem below is proved for all interpretations of these functions:
no claim depends on their values. -/
structure Oracles where
  /-- `np.sqrt` on a nonnegative rational (used by `np.std` and `stats.skew`). -/
  sqrtQ : ℚ → ℚ
  /-- natural logarithm, used by `stats.entropy`. -/
  logQ : ℚ → ℚ
  /-- dominant frequency `f[argmax psd]` of `scipy.signal.welch(sig, fs, nperseg=min(256, len))`. -/
  welchDomFreq : ℕ → List ℚ → ℚ
  /-- total power `np.sum(psd)` of the same Welch periodogram. -/
  welchTotPower : ℕ → List ℚ → ℚ
  /-- numerator taps of `scipy.signal.butter(3, [0.5/nyq, 8.0/nyq], btype="band")`:
  seven coefficients for an order-3 band-pass design at sample rate `fs`. -/
  butterB : ℕ → Fin 7 → ℚ
  /-- denominator taps of the same Butterworth design. -/
  butterA : ℕ → Fin 7 → ℚ
  /-- `scipy.signal.lfilter_zi(b, a)`: steady-state initial filter delays. -/
  lfilterZi : List ℚ → List ℚ → List ℚ
  /-- Python's `round(x, 1)` (banker's rounding of a binary float). -/
  round1 : ℚ → ℚ

/-!  Feature extractors (single row, as used by the pipeline). -/

/-- `stats.entropy(np.abs(x) + 1e-8)`: Shannon entropy of the normalized
absolute samples. -/
def entropyQ (logQ : ℚ → ℚ) (s : List ℚ) : ℚ :=
  let pk := s.map fun v => |v| + eps
  let tot := pk.sum;
  -(pk.map fun p => p / tot * logQ (p / tot)).sum

/-- `extract_time_domain_features` on one row: mean, std, max, min, range,
skewness, excess kurtosis, entropy of absolute values.  `scipy.stats.skew` and
`scipy.stats.kurtosis` yield NaN when the second central moment vanishes. -/
def extract_time_domain_features (O : Oracles) (s : List ℚ) : List (Option ℚ) :=
  let m := qmean s
  let m2 := qmean (s.map fun v => (v - m) ^ 2)
  let m3 := qmean (s.map fun v => (v - m) ^ 3)
  let m4 := qmean (s.map fun v => (v - m) ^ 4)
  [some m, some (O.sqrtQ m2), some (listMax s), some (listMin s),
   some (listMax s - listMin s),
   if m2 = 0 then none else some (m3 / (m2 * O.sqrtQ m2)),
   if m2 = 0 then none else some (m4 / m2 ^ 2 - 3),
   some (entropyQ O.logQ s)]

/-- `extract_frequency_domain_features` on one row: dominant frequency and
total power of the Welch periodogram (abstracted: the periodogram is
transcendental; both outputs are always finite, which is all any claim uses). -/
def extract_frequency_domain_features (O : Oracles) (fs : ℕ) (s : List ℚ) : List (Option ℚ) :=
  [some (O.welchDomFreq fs s), some (O.welchTotPower fs s)]

/-- Body of `extract_ppg_specific_features` once the peaks are known: mean of
consecutive peak-index differences divided by `fs`, and mean peak amplitude;
NaN for both when fewer than two peaks were detected. -/
def pulseOf (s : List ℚ) (fs : ℕ) (pks : List ℕ) : Option ℚ × Option ℚ :=
  if 1 < pks.length then
    (some (qmean (natDiffs pks) / (fs : ℚ)), some (qmean (pks.map fun i => s.getD i 0)))
  else (none, none)

/-- `extract_ppg_specific_features(sig, fs)` on one row: beats are detected by
`find_peaks(s, distance=int(fs*0.5))`; `int(fs*0.5)` truncates, i.e. `⌊fs/2⌋`. -/
def extract_ppg_specific_features (s : List ℚ) (fs : ℕ) : Except String (Option ℚ × Option ℚ) :=
  (find_peaks_checked s ((fs / 2 : ℕ) : ℚ)).map (pulseOf s fs)

/-- The morphology extractor's internal re-normalization
`(sig - min) / (max - min + 1e-8)` (first line of its per-signal loop). -/
def morphSig (s : List ℚ) : List ℚ :=
  s.map fun v => (v - listMin s) / (listMax s - listMin s + eps)

/-- `find_peaks(sig, distance=50)` inside `extract_ppg_features`. -/
def morphPeaks (s : List ℚ) : List ℕ := findPeaksDist (morphSig s) 50

/-- `find_peaks(-sig, distance=50)` inside `extract_ppg_features`. -/
def morphValleys (s : List ℚ) : List ℕ := findPeaksDist ((morphSig s).map fun v => -v) 50

/-- `T1 = peaks[0] - valleys[0]` (a Python int; may be negative). -/
def morphT1 (s : List ℚ) : ℤ :=
  ((morphPeaks s).getD 0 0 : ℤ) - ((morphValleys s).getD 0 0 : ℤ)

/-- `T2 = valleys[1] - peaks[0] if len(valleys) > 1 else T1`. -/
def morphT2 (s : List ℚ) : ℤ :=
  if 1 < (morphValleys s).length then
    ((morphValleys s).getD 1 0 : ℤ) - ((morphPeaks s).getD 0 0 : ℤ)
  else morphT1 s

/-- `T3 = peaks[1] - valleys[1] if len(peaks) > 1 and len(valleys) > 1 else T1`. -/
def morphT3 (s : List ℚ) : ℤ :=
  if 1 < (morphPeaks s).length ∧ 1 < (morphValleys s).length then
    ((morphPeaks s).getD 1 0 : ℤ) - ((morphValleys s).getD 1 0 : ℤ)
  else morphT1 s

/-- `T4 = valleys[0] - peaks[0]`. -/
def morphT4 (s : List ℚ) : ℤ :=
  ((morphValleys s).getD 0 0 : ℤ) - ((morphPeaks s).getD 0 0 : ℤ)

/-- `T5 = peaks[0] - valleys[0]`. -/
def morphT5 (s : List ℚ) : ℤ :=
  ((morphPeaks s).getD 0 0 : ℤ) - ((morphValleys s).getD 0 0 : ℤ)

/-- `Pp = sig[peaks[0]]` on the re-normalized signal. -/
def morphPp (s : List ℚ) : ℚ := (morphSig s).getD ((morphPeaks s).getD 0 0) 0

/-- `Pv = sig[valleys[0]]` on the re-normalized signal. -/
def morphPv (s : List ℚ) : ℚ := (morphSig s).getD ((morphValleys s).getD 0 0) 0

/-- `d = np.diff(sig)` on the re-normalized signal. -/
def morphDiffs (s : List ℚ) : List ℚ := pairDiffsQ (morphSig s)

/-- `extract_ppg_features(ppg_array, fs)` on one row: the nine fiducial
morphology features `[ETR, BD, HR, SVC, DVC, SMVC, DMVC, PWIR, PWAT]`,
all NaN when fewer than 2 peaks or fewer than 2 valleys are detected. -/
def extract_ppg_features (s : List ℚ) (fs : ℕ) : List (Option ℚ) :=
  if (morphPeaks s).length < 2 ∨ (morphValleys s).length < 2 then
    List.replicate 9 none
  else
    [if morphT1 s + morphT2 s + morphT3 s ≠ 0 then
        some (((morphT4 s + morphT5 s : ℤ) : ℚ) / ((morphT1 s + morphT2 s + morphT3 s : ℤ) : ℚ))
      else none,
     some ((morphT1 s + morphT2 s + morphT3 s : ℤ) : ℚ),
     some (((morphT1 s + morphT2 s + morphT3 s : ℤ) : ℚ) / 60),
     if morphT1 s ≠ 0 then some ((morphPp s - morphPv s) / ((morphT1 s : ℤ) : ℚ)) else none,
     if morphT2 s ≠ 0 then some ((morphPp s - morphPv s) / ((morphT2 s : ℤ) : ℚ)) else none,
     some (listMax (morphDiffs s)), some (listMin (morphDiffs s)),
     if morphPv s ≠ 0 then some (morphPp s / morphPv s) else none,
     some (((morphT1 s : ℤ) : ℚ) / (fs : ℚ))]

/-!  Aggregation: `extract_features`. -/

/-- `MinMaxScaler().fit_transform(arr.T)` on a single column: scale to `[0,1]`
by `(x - min) / (max - min)`; sklearn replaces a zero range by `1`, so a
constant signal maps to all zeros.  Note: no `1e-8` term here. -/
def minmaxScale (w : List ℚ) : List ℚ :=
  let mn := listMin w
  let mx := listMax w
  let scale := if mx - mn = 0 then 1 else mx - mn
  w.map fun v => (v - mn) / scale

/-- `SimpleImputer(strategy="mean").fit_transform` on a single row: the column
mean of a one-row column is the value itself, and sklearn discards columns
that hold only missing values, so the output row is exactly the non-missing
slots in order. -/
def simpleImputeRow (feats : List (Option ℚ)) : List ℚ := feats.filterMap id

/-- The 21 feature slots `hstack((tf, ff, pf, wf))` before imputation, with the
source's fixed internal sample rate of 100 for the pulse-interval, frequency
and morphology extractors. -/
def featuresRaw (O : Oracles) (w : List ℚ) : List (Option ℚ) :=
  let scaled := minmaxScale w
  let pf := pulseOf scaled 100 (findPeaksDist scaled ((100 / 2 : ℕ) : ℚ))
  extract_time_domain_features O scaled ++
    extract_frequency_domain_features O 100 scaled ++
    [pf.1, pf.2] ++
    extract_ppg_features scaled 100

/-- `extract_features(ppg_signal)`: MinMax-scale the single row, run the four
extractors (each at its default `fs=100`; the caller's `fs` is not passed),
concatenate and impute. -/
def extract_features (O : Oracles) (w : List ℚ) : Except String (List ℚ) :=
  let scaled := minmaxScale w
  match extract_ppg_specific_features scaled 100 with
  | Except.error e => Except.error e
  | Except.ok pf =>
    Except.ok (simpleImputeRow
      (extract_time_domain_features O scaled ++
       extract_frequency_domain_features O 100 scaled ++
       [pf.1, pf.2] ++
       extract_ppg_features scaled 100))

/-- Generalization of `extract_features` in which the sample rate handed to the
extractors is a parameter instead of the hard-wired `100` (used to state that
the source fixes it to 100). -/
def extract_features_at (O : Oracles) (fs : ℕ) (w : List ℚ) : Except String (List ℚ) :=
  let scaled := minmaxScale w
  match extract_ppg_specific_features scaled fs with
  | Except.error e => Except.error e
  | Except.ok pf =>
    Except.ok (simpleImputeRow
      (extract_time_domain_features O scaled ++
       extract_frequency_domain_features O fs scaled ++
       [pf.1, pf.2] ++
       extract_ppg_features scaled fs))

/-!  Zero-phase band-pass filtering: `scipy.signal.filtfilt` with the default
odd extension of length `padlen = 3 * max(len(a), len(b))`. -/

/-- `scipy.signal._arraytools.odd_ext(x, n)`: reflect the signal about its
first and last samples, `2*x[0] - x[n..1]` on the left and
`2*x[-1] - x[-2..-(n+1)]` on the right. -/
def oddExt (n : ℕ) (x : List ℚ) : List ℚ :=
  let x0 := x.headD 0
  let xl := x.getLastD 0
  ((x.drop 1).take n).reverse.map (fun v => 2 * x0 - v) ++ x ++
    ((x.reverse.drop 1).take n).map fun v => 2 * xl - v

/-- One step of `lfilter` in direct form II transposed: output sample and the
updated delay line (of length `max(len(b), len(a)) - 1`), for coefficients
already normalized by `a[0]`. -/
def dfStep (b a : List ℚ) (m : ℕ) (x : ℚ) (z : List ℚ) : ℚ × List ℚ :=
  let y := b.headD 0 * x + z.headD 0
  (y, (List.range (m - 1)).map fun i => b.getD (i + 1) 0 * x - a.getD (i + 1) 0 * y + z.getD (i + 1) 0)

/-- The sample loop of `lfilter`, threading the delay line. -/
def lfilterGo (b a : List ℚ) (m : ℕ) : List ℚ → List ℚ → List ℚ
  | _, [] => []
  | z, xx :: xs => (dfStep b a m xx z).1 :: lfilterGo b a m (dfStep b a m xx z).2 xs

/-- `scipy.signal.lfilter(b, a, x, zi)`: normalize by `a[0]` and run the
direct-form-II-transposed recurrence from the initial delays `zi`. -/
def lfilter (b a zi x : List ℚ) : List ℚ :=
  let a0 := a.headD 0
  lfilterGo (b.map fun v => v / a0) (a.map fun v => v / a0) (max b.length a.length) zi x

/-- `scipy.signal.filtfilt(b, a, x)` with default arguments: raise when the
input is not longer than `padlen = 3 * max(len(a), len(b))`; otherwise apply
`lfilter` forward and backward over the odd extension, with initial delays
`lfilter_zi(b, a)` scaled by the first sample of each pass, and slice out the
central `len(x)` samples. -/
def filtfilt (zi b a x : List ℚ) : Except String (List ℚ) :=
  let edge := 3 * max b.length a.length
  if x.length ≤ edge then
    Except.error "The length of the input vector x must be greater than padlen."
  else
    let ext := oddExt edge x
    let y1 := lfilter b a (zi.map fun v => v * ext.headD 0) ext
    let y2 := (lfilter b a (zi.map fun v => v * y1.getLastD 0) y1.reverse).reverse
    Except.ok ((y2.drop edge).take x.length)

/-- `butter_bandpass_filter(data, lowcut=0.5, highcut=8.0, fs, order=3)`:
`butter` demands normalized critical frequencies in `(0, 1)`, i.e.
`8.0 / (0.5 * fs) < 1`, so any integer sample rate `fs ≤ 16` raises; otherwise
apply `filtfilt` with the seven designed taps. -/
def butter_bandpass_filter (O : Oracles) (data : List ℚ) (fs : ℕ) : Except String (List ℚ) :=
  if fs ≤ 16 then
    Except.error "Digital filter critical frequencies must be 0 < Wn < 1"
  else
    let b := List.ofFn (O.butterB fs)
    let a := List.ofFn (O.butterA fs)
    filtfilt (O.lfilterZi b a) b a data

/-!  The `/predict` route. -/

/-- The two failure classes the route can answer with: HTTP 400 for the merged
"empty input or models not loaded" check, HTTP 500 for an exception caught in
the processing `try` block. -/
inductive ApiError where
  | badRequest (msg : String)
  | internal (msg : String)
deriving DecidableEq

/-- The route's success payload: both pressures and the filtered waveform. -/
structure PredictionResult where
  sbp : ℚ
  dbp : ℚ
  filtered : List ℚ
deriving DecidableEq

/-- `predict()`: reject an empty waveform or unloaded models with the single
400 response `"Invalid input or models not loaded"`; otherwise filter, extract
features and apply both models inside a `try` whose exceptions become a 500
response. -/
def predict (O : Oracles) (modelSbp modelDbp : Option (List ℚ → ℚ)) (ppg : List ℚ)
    (fs : ℕ) : Except ApiError PredictionResult :=
  match modelSbp, modelDbp with
  | some ms, some md =>
    if ppg = [] then Except.error (ApiError.badRequest "Invalid input or models not loaded")
    else
      match butter_bandpass_filter O ppg fs with
      | Except.error e => Except.error (ApiError.internal e)
      | Except.ok filt =>
        match extract_features O filt with
        | Except.error e => Except.error (ApiError.internal e)
        | Except.ok x =>
          Except.ok ⟨O.round1 (ms x), O.round1 (md x), filt⟩
  | _, _ => Except.error (ApiError.badRequest "Invalid input or models not loaded")

/-- The feature vector as the route computes it: band-pass filter, then
`extract_features` (which takes no sample rate). -/
def pipelineFeatures (O : Oracles) (w : List ℚ) (fs : ℕ) : Except String (List ℚ) :=
  match butter_bandpass_filter O w fs with
  | Except.error e => Except.error e
  | Except.ok filt => extract_features O filt

/-!  Definitions written from the specification's words, for the refinement
claims.  They are compared against the source-derived definitions above. -/

/-- Spec, §4.2: normalization by `(x - min) / (max - min + ε)` with `ε = 1e-8`. -/
def normalize_spec (w : List ℚ) : List ℚ :=
  w.map fun v => (v - listMin w) / (listMax w - listMin w + eps)

/-- Spec, §4.5 (claim C2): beats are local maxima at least `0.5 × fs` samples
apart; outputs are the mean consecutive peak-index difference divided by the
sample rate, and the mean peak amplitude; both missing when fewer than two
beats are found. -/
def pulse_interval_spec (s : List ℚ) (fs : ℕ) : Option ℚ × Option ℚ :=
  let pks := findPeaksDist s ((fs : ℚ) / 2)
  if 1 < pks.length then
    (some (qmean (natDiffs pks) / (fs : ℚ)), some (qmean (pks.map fun i => s.getD i 0)))
  else (none, none)

/-- Amended C2: same as `pulse_interval_spec` except that the minimum distance
is the truncation `int(0.5 * fs) = ⌊fs / 2⌋` actually passed by the source. -/
def pulse_floor_spec (s : List ℚ) (fs : ℕ) : Option ℚ × Option ℚ :=
  let pks := findPeaksDist s ((fs / 2 : ℕ) : ℚ)
  if 1 < pks.length then
    (some (qmean (natDiffs pks) / (fs : ℚ)), some (qmean (pks.map fun i => s.getD i 0)))
  else (none, none)

/-- Spec, §4.6 (claim C9): the morphology block with `T4 = −T1` and `T5 = T1`
("first-valley-to-peak span"), `T2`/`T3` falling back to `T1` when a second
valley or peak is unavailable, ejection-time ratio `(T4+T5)/(T1+T2+T3)`
(missing when the denominator is zero), and the fixed order
`[ETR, BD, HR, SVC, DVC, SMVC, DMVC, PWIR, PWAT]`. -/
def morphology_spec (s : List ℚ) (fs : ℕ) : List (Option ℚ) :=
  if (morphPeaks s).length < 2 ∨ (morphValleys s).length < 2 then
    List.replicate 9 none
  else
    [if morphT1 s + morphT2 s + morphT3 s ≠ 0 then
        some (((-morphT1 s + morphT1 s : ℤ) : ℚ) / ((morphT1 s + morphT2 s + morphT3 s : ℤ) : ℚ))
      else none,
     some ((morphT1 s + morphT2 s + morphT3 s : ℤ) : ℚ),
     some (((morphT1 s + morphT2 s + morphT3 s : ℤ) : ℚ) / 60),
     if morphT1 s ≠ 0 then some ((morphPp s - morphPv s) / ((morphT1 s : ℤ) : ℚ)) else none,
     if morphT2 s ≠ 0 then some ((morphPp s - morphPv s) / ((morphT2 s : ℤ) : ℚ)) else none,
     some (listMax (morphDiffs s)), some (listMin (morphDiffs s)),
     if morphPv s ≠ 0 then some (morphPp s / morphPv s) else none,
     some (((morphT1 s : ℤ) : ℚ) / (fs : ℚ))]

/-!  Concrete inputs for witnesses and counterexamples. -/

/-- All-zero oracle interpretation used to instantiate witnesses. -/
def oracle0 : Oracles where
  sqrtQ := fun _ => 0
  logQ := fun _ => 0
  welchDomFreq := fun _ _ => 0
  welchTotPower := fun _ _ => 0
  butterB := fun _ _ => 0
  butterA := fun _ _ => 0
  lfilterZi := fun _ _ => []
  round1 := fun q => q

/-- A strictly increasing 30-sample ramp (long enough for the zero-phase
filter's padding requirement of 22 samples). -/
def ramp30 : List ℚ := (List.range 30).map fun n => (n : ℚ)

/-- A 106-sample triangle wave of period 52: local maxima at indices 26 and 78,
local minima at 52 and 104, all at least 50 samples apart. -/
def tri106 : List ℚ := (List.range 106).map fun i => ((min (i % 52) (52 - i % 52) : ℕ) : ℚ)

/-- Executable check that adjacent samples all satisfy the boolean relation
`r` (used to certify strict monotonicity of concrete waveforms). -/
def chainB (r : ℚ → ℚ → Bool) : List ℚ → Bool
  | [] => true
  | [_] => true
  | a :: b :: t => r a b && chainB r (b :: t)

/-- Decidable equality on `Except`, for evaluating results on concrete inputs. -/
instance {ε α : Type} [DecidableEq ε] [DecidableEq α] : DecidableEq (Except ε α) := fun x y =>
  match x, y with
  | Except.ok a, Except.ok b =>
    decidable_of_iff (a = b) ⟨fun h => by rw [h], fun h => Except.ok.inj h⟩
  | Except.error a, Except.error b =>
    decidable_of_iff (a = b) ⟨fun h => by rw [h], fun h => Except.error.inj h⟩
  | Except.ok _, Except.error _ => Decidable.isFalse fun h => Except.noConfusion h
  | Except.error _, Except.ok _ => Decidable.isFalse fun h => Except.noConfusion h

/-!  Helper lemmas. -/

theorem foldl_min_le (t : List ℚ) : ∀ a : ℚ, t.foldl min a ≤ a := by
  induction t with
  | nil => intro a; exact le_refl a
  | cons b t ih => intro a; exact le_trans (ih (min a b)) (min_le_left a b)

theorem le_foldl_max (t : List ℚ) : ∀ a : ℚ, a ≤ t.foldl max a := by
  induction t with
  | nil => intro a; exact le_refl a
  | cons b t ih => intro a; exact le_trans (le_max_left a b) (ih (max a b))

theorem listMin_le_listMax (l : List ℚ) : listMin l ≤ listMax l := by
  cases l with
  | nil => exact le_refl 0
  | cons h t => exact le_trans (foldl_min_le t h) (le_foldl_max t h)

theorem foldl_min_map (f : ℚ → ℚ) (hf : ∀ a b : ℚ, f (min a b) = min (f a) (f b))
    (t : List ℚ) : ∀ a : ℚ, (t.map f).foldl min (f a) = f (t.foldl min a) := by
  induction t with
  | nil => intro a; rfl
  | cons b t ih => intro a; simp only [List.map_cons, List.foldl_cons, ← hf, ih]

theorem foldl_max_map (f : ℚ → ℚ) (hf : ∀ a b : ℚ, f (max a b) = max (f a) (f b))
    (t : List ℚ) : ∀ a : ℚ, (t.map f).foldl max (f a) = f (t.foldl max a) := by
  induction t with
  | nil => intro a; rfl
  | cons b t ih => intro a; simp only [List.map_cons, List.foldl_cons, ← hf, ih]

theorem listMin_map (f : ℚ → ℚ) (hf : ∀ a b : ℚ, f (min a b) = min (f a) (f b)) :
    ∀ l : List ℚ, l ≠ [] → listMin (l.map f) = f (listMin l) := by
  intro l hl
  cases l with
  | nil => exact absurd rfl hl
  | cons h t => simpa [listMin] using foldl_min_map f hf t h

theorem listMax_map (f : ℚ → ℚ) (hf : ∀ a b : ℚ, f (max a b) = max (f a) (f b)) :
    ∀ l : List ℚ, l ≠ [] → listMax (l.map f) = f (listMax l) := by
  intro l hl
  cases l with
  | nil => exact absurd rfl hl
  | cons h t => simpa [listMax] using foldl_max_map f hf t h

theorem chain_lt_getD {x : List ℚ} (h : List.Chain' (· < ·) x) :
    ∀ i : ℕ, i + 1 < x.length → x.getD i 0 < x.getD (i + 1) 0 := by
  intro i hi
  rw [List.getD_eq_getElem x 0 (by omega : i < x.length), List.getD_eq_getElem x 0 hi]
  simpa [List.get_eq_getElem] using List.chain'_iff_get.mp h i (by omega)

theorem chain_gt_getD {x : List ℚ} (h : List.Chain' (· > ·) x) :
    ∀ i : ℕ, i + 1 < x.length → x.getD (i + 1) 0 < x.getD i 0 := by
  intro i hi
  rw [List.getD_eq_getElem x 0 (by omega : i < x.length), List.getD_eq_getElem x 0 hi]
  simpa [List.get_eq_getElem] using List.chain'_iff_get.mp h i (by omega)

theorem lmAhead_stop (x : List ℚ) (iMax : ℕ) (v : ℚ) (j : ℕ)
    (h : ¬(j < iMax ∧ x.getD j 0 = v)) : ∀ f, lmAhead x iMax v f j = j := by
  intro f
  cases f with
  | zero => rfl
  | succ f => simp only [lmAhead, if_neg h]

theorem lmLoop_nil_of_noRise (x : List ℚ) (iMax : ℕ)
    (h : ∀ i, 0 < i → i < iMax → ¬ x.getD (i - 1) 0 < x.getD i 0) :
    ∀ f i, 0 < i → lmLoop x iMax f i = [] := by
  intro f
  induction f with
  | zero => intro i _; rfl
  | succ f ih =>
    intro i hi
    by_cases hlt : i < iMax
    · simp only [lmLoop, if_pos hlt, if_neg (h i hi hlt)]
      exact ih (i + 1) (by omega)
    · simp only [lmLoop, if_neg hlt]

theorem lmLoop_nil_of_chain_lt (x : List ℚ) (h : List.Chain' (· < ·) x) :
    ∀ f i, 0 < i → lmLoop x (x.length - 1) f i = [] := by
  intro f
  induction f with
  | zero => intro i _; rfl
  | succ f ih =>
    intro i hi
    by_cases hlt : i < x.length - 1
    · have hnext : i + 1 < x.length := by omega
      have hA : lmAhead x (x.length - 1) (x.getD i 0) (x.length + 1) (i + 1) = i + 1 := by
        apply lmAhead_stop
        rintro ⟨h1, h2⟩
        exact absurd h2.symm (ne_of_lt (chain_lt_getD h i hnext))
      have hfall : ¬ x.getD (i + 1) 0 < x.getD i 0 :=
        not_lt_of_gt (chain_lt_getD h i hnext)
      by_cases hr : x.getD (i - 1) 0 < x.getD i 0
      · simp only [lmLoop, if_pos hlt, if_pos hr, hA, if_neg hfall]
        exact ih (i + 1) (by omega)
      · simp only [lmLoop, if_pos hlt, if_neg hr]
        exact ih (i + 1) (by omega)
    · simp only [lmLoop, if_neg hlt]

theorem localMaxima_nil_of_chain_lt {x : List ℚ} (h : List.Chain' (· < ·) x) :
    localMaxima x = [] :=
  lmLoop_nil_of_chain_lt x h (x.length + 1) 1 (by omega)

theorem localMaxima_nil_of_chain_gt {x : List ℚ} (h : List.Chain' (· > ·) x) :
    localMaxima x = [] := by
  apply lmLoop_nil_of_noRise x (x.length - 1) _ (x.length + 1) 1 (by omega)
  intro i hi hlt
  have hidx : (i - 1) + 1 < x.length := by omega
  have := chain_gt_getD h (i - 1) hidx
  rw [show i - 1 + 1 = i by omega] at this
  exact not_lt_of_gt this

theorem findPeaksDist_nil {x : List ℚ} (h : localMaxima x = []) (d : ℚ) :
    findPeaksDist x d = [] := by
  show findPeaksFrom x d (localMaxima x) = []
  rw [h]
  rfl

theorem chainB_iff (r : ℚ → ℚ → Bool) (l : List ℚ) :
    chainB r l = true ↔ List.Chain' (fun a b => r a b = true) l := by
  induction l with
  | nil => simp [chainB]
  | cons a t ih =>
    cases t with
    | nil => simp [chainB]
    | cons b t2 =>
      simp [chainB, List.chain'_cons, Bool.and_eq_true, ih, and_comm]

theorem chain_lt_of_chainB {l : List ℚ} (h : chainB (fun a b => decide (a < b)) l = true) :
    List.Chain' (· < ·) l :=
  ((chainB_iff _ l).mp h).imp fun _ _ hh => of_decide_eq_true hh

theorem pulse_ok (s : List ℚ) (fs : ℕ) (h : 2 ≤ fs) :
    extract_ppg_specific_features s fs =
      Except.ok (pulseOf s fs (findPeaksDist s ((fs / 2 : ℕ) : ℚ))) := by
  have h0 : 1 ≤ fs / 2 := (Nat.one_le_div_iff (by norm_num)).mpr h
  have h1 : (1 : ℚ) ≤ ((fs / 2 : ℕ) : ℚ) := by exact_mod_cast h0
  simp [extract_ppg_specific_features, find_peaks_checked, not_lt.mpr h1, Except.map]

theorem extract_features_eq (O : Oracles) (w : List ℚ) :
    extract_features O w = Except.ok (simpleImputeRow (featuresRaw O w)) := by
  simp [extract_features, featuresRaw, pulse_ok (minmaxScale w) 100 (by norm_num)]

theorem morphSig_scale_pos (s : List ℚ) : 0 < listMax s - listMin s + eps := by
  have h := listMin_le_listMax s
  have he : (0 : ℚ) < eps := by norm_num [eps]
  linarith

theorem morphSig_chain_lt {s : List ℚ} (h : List.Chain' (· < ·) s) :
    List.Chain' (· < ·) (morphSig s) := by
  unfold morphSig
  exact List.chain'_map_of_chain' _
    (fun a b hab => (div_lt_div_iff_of_pos_right (morphSig_scale_pos s)).mpr (by linarith)) h

theorem morphSig_chain_gt {s : List ℚ} (h : List.Chain' (· > ·) s) :
    List.Chain' (· > ·) (morphSig s) := by
  unfold morphSig
  refine List.chain'_map_of_chain' (R := (· > ·)) (S := (· > ·)) _ ?_ h
  intro a b hab
  exact (div_lt_div_iff_of_pos_right (morphSig_scale_pos s)).mpr (by linarith)

theorem lfilterGo_length (b a : List ℚ) (m : ℕ) :
    ∀ (x z : List ℚ), (lfilterGo b a m z x).length = x.length := by
  intro x
  induction x with
  | nil => intro z; rfl
  | cons xx xs ih => intro z; simp [lfilterGo, ih]

theorem lfilter_length (b a zi x : List ℚ) : (lfilter b a zi x).length = x.length := by
  simp [lfilter, lfilterGo_length]

theorem oddExt_length (n : ℕ) (x : List ℚ) (h : n + 1 ≤ x.length) :
    (oddExt n x).length = x.length + 2 * n := by
  simp only [oddExt, List.length_append, List.length_map, List.length_reverse,
    List.length_take, List.length_drop]
  omega

theorem filtfilt_length (zi b a x : List ℚ) (h : 3 * max b.length a.length < x.length) :
    ∃ y, filtfilt zi b a x = Except.ok y ∧ y.length = x.length := by
  have hnot : ¬ x.length ≤ 3 * max b.length a.length := not_le.mpr h
  simp only [filtfilt, if_neg hnot]
  refine ⟨_, rfl, ?_⟩
  have hext : (oddExt (3 * max b.length a.length) x).length
      = x.length + 2 * (3 * max b.length a.length) :=
    oddExt_length _ x (by omega)
  simp only [List.length_take, List.length_drop, List.length_reverse, lfilter_length, hext]
  omega

theorem filterMap_id_length_iff {α : Type} : ∀ l : List (Option α),
    (l.filterMap id).length = l.length ↔ ∀ x ∈ l, x ≠ none := by
  intro l
  induction l with
  | nil => simp
  | cons a t ih =>
    cases a with
    | none =>
      have hle := List.length_filterMap_le (id : Option α → Option α) t
      simp only [List.filterMap_cons, id, List.length_cons]
      exact iff_of_false (fun hh => by omega)
        (fun hx => hx none (List.mem_cons_self _ _) rfl)
    | some v =>
      simp only [List.filterMap_cons, id, List.length_cons, Nat.add_right_cancel_iff, ih]
      constructor
      · intro hx x hmem
        rcases List.mem_cons.mp hmem with h1 | h2
        · rw [h1]; exact Option.some_ne_none v
        · exact hx x h2
      · intro hx x hmem; exact hx x (List.mem_cons_of_mem _ hmem)

theorem extract_ppg_features_length (s : List ℚ) (fs : ℕ) :
    (extract_ppg_features s fs).length = 9 := by
  unfold extract_ppg_features
  split <;> simp

theorem featuresRaw_length (O : Oracles) (w : List ℚ) : (featuresRaw O w).length = 21 := by
  simp [featuresRaw, extract_time_domain_features, extract_frequency_domain_features,
    extract_ppg_features_length]

/-!  Claim theorems. -/

/-- Claim C4 (confirmed): for every waveform longer than the zero-phase
filter's padding requirement (`padlen = 3 * max(len(a), len(b)) = 21` taps for
the order-3 band-pass design, so length at least 22) and any sample rate the
Butterworth design accepts (`fs > 16`, else `butter` itself raises),
`butter_bandpass_filter` succeeds and returns an output of exactly the same
length as its input. -/
theorem C4_filter_preserves_length (O : Oracles) (fs : ℕ) (w : List ℚ)
    (hfs : 16 < fs) (hw : 21 < w.length) :
    ∃ y, butter_bandpass_filter O w fs = Except.ok y ∧ y.length = w.length := by
  have hnot : ¬ fs ≤ 16 := not_le.mpr hfs
  simp only [butter_bandpass_filter, if_neg hnot]
  exact filtfilt_length _ _ _ _ (by simp only [List.length_ofFn]; omega)

/-- Witness for C4: a concrete 22-sample waveform at `fs = 17`. -/
theorem C4_witness :
    ∃ y, butter_bandpass_filter oracle0 (List.replicate 22 (0 : ℚ)) 17 = Except.ok y ∧
      y.length = (List.replicate 22 (0 : ℚ)).length :=
  C4_filter_preserves_length oracle0 17 (List.replicate 22 (0 : ℚ)) (by norm_num) (by simp)

/-- Claim C3 (confirmed): `extract_features` takes no sample rate — it invokes
every extractor at the fixed internal rate 100 (`extract_features_at 100`) —
so in the `/predict` pipeline only the band-pass filtering step depends on the
request's `fs`: two runs whose band-pass outputs coincide produce identical
feature vectors and identical responses. -/
theorem C3_features_independent_of_fs (O : Oracles) (w₁ : List ℚ) (fs₁ : ℕ)
    (w₂ : List ℚ) (fs₂ : ℕ) (w : List ℚ) (ms md : List ℚ → ℚ)
    (hfilt : butter_bandpass_filter O w₁ fs₁ = butter_bandpass_filter O w₂ fs₂)
    (h₁ : w₁ ≠ []) (h₂ : w₂ ≠ []) :
    pipelineFeatures O w₁ fs₁ = pipelineFeatures O w₂ fs₂ ∧
      predict O (some ms) (some md) w₁ fs₁ = predict O (some ms) (some md) w₂ fs₂ ∧
      extract_features O w = extract_features_at O 100 w := by
  refine ⟨?_, ?_, rfl⟩
  · simp only [pipelineFeatures, hfilt]
  · simp only [predict, if_neg h₁, if_neg h₂, hfilt]

/-- Witness for C3: the same waveform filtered at `fs = 100` and `fs = 17`
(both runs fail filtering identically on this short input). -/
theorem C3_witness :
    pipelineFeatures oracle0 [1, 2, 3] 100 = pipelineFeatures oracle0 [1, 2, 3] 17 ∧
      predict oracle0 (some fun _ => 120) (some fun _ => 80) [1, 2, 3] 100 =
        predict oracle0 (some fun _ => 120) (some fun _ => 80) [1, 2, 3] 17 ∧
      extract_features oracle0 [2, 4] = extract_features_at oracle0 100 [2, 4] :=
  C3_features_independent_of_fs oracle0 [1, 2, 3] 100 [1, 2, 3] 17 [2, 4] _ _ rfl
    (by decide) (by decide)

/-- Claim C7 (counterexample): the route does not distinguish an empty
waveform from unavailable models — `predict` returns the very same failure
value in both situations, so there is no typed `InvalidInput` versus
`ModelUnavailable` distinction in the code. -/
theorem C7_counterexample :
    predict oracle0 (some fun _ => 120) (some fun _ => 80) [] 100 =
      predict oracle0 none none [1] 100 := rfl

/-- Claim C7 (amended): an empty waveform or an unavailable model makes
`predict` return the single merged 400-class failure
`"Invalid input or models not loaded"`, and it does so before any filtering or
feature extraction is attempted: the result is this constant for every
interpretation of the filtering and extraction oracles. -/
theorem C7_fail_fast (O : Oracles) (m1 m2 : Option (List ℚ → ℚ)) (w : List ℚ) (fs : ℕ)
    (h : w = [] ∨ m1 = none ∨ m2 = none) :
    predict O m1 m2 w fs =
      Except.error (ApiError.badRequest "Invalid input or models not loaded") := by
  cases m1 with
  | none => rfl
  | some ms =>
    cases m2 with
    | none => rfl
    | some md =>
      rcases h with h | h | h
      · simp [predict, h]
      · exact absurd h (Option.some_ne_none ms)
      · exact absurd h (Option.some_ne_none md)

/-- Witness for C7: the empty waveform with both models available. -/
theorem C7_witness :
    predict oracle0 (some fun _ => 120) (some fun _ => 80) [] 100 =
      Except.error (ApiError.badRequest "Invalid input or models not loaded") :=
  C7_fail_fast oracle0 (some fun _ => 120) (some fun _ => 80) [] 100 (Or.inl rfl)

/-- Claim C8 (confirmed): with both models loaded, `predict` never yields a
partial result — every run ends either in a typed failure or in a complete
result carrying both pressures and the filtered waveform — and an exception
raised by the band-pass filter is caught and surfaced as the 500-class
`internal` failure instead of propagating. -/
theorem C8_no_partial_results (O : Oracles) (ms md : List ℚ → ℚ) (w : List ℚ) (fs : ℕ) :
    ((∃ e, predict O (some ms) (some md) w fs = Except.error e) ∨
      (∃ filt x, butter_bandpass_filter O w fs = Except.ok filt ∧
        extract_features O filt = Except.ok x ∧
        predict O (some ms) (some md) w fs =
          Except.ok ⟨O.round1 (ms x), O.round1 (md x), filt⟩)) ∧
    (∀ e, w ≠ [] → butter_bandpass_filter O w fs = Except.error e →
      predict O (some ms) (some md) w fs = Except.error (ApiError.internal e)) := by
  constructor
  · by_cases hw : w = []
    · exact Or.inl ⟨ApiError.badRequest "Invalid input or models not loaded",
        by simp [predict, hw]⟩
    · cases hb : butter_bandpass_filter O w fs with
      | error e => exact Or.inl ⟨ApiError.internal e, by simp [predict, hw, hb]⟩
      | ok filt =>
        refine Or.inr
          ⟨filt, simpleImputeRow (featuresRaw O filt), rfl, extract_features_eq O filt, ?_⟩
        simp [predict, hw, hb, extract_features_eq]
  · intro e hw hb
    simp [predict, hw, hb]

/-- Witness for C8: a waveform too short for the filter is answered with the
caught 500-class failure. -/
theorem C8_witness :
    predict oracle0 (some fun _ => 120) (some fun _ => 80) [1, 2, 3] 100 =
      Except.error
        (ApiError.internal "The length of the input vector x must be greater than padlen.") :=
  (C8_no_partial_results oracle0 (fun _ => 120) (fun _ => 80) [1, 2, 3] 100).2 _
    (by decide) rfl

/-- Claim C2 (counterexample): at `fs = 5` the source passes
`int(5 * 0.5) = 2` to `find_peaks`, keeping both peaks of `[0,1,0,1,0]` (two
samples apart) and answering interval `2/5` with amplitude `1`; the claimed
minimum inter-peak distance of `0.5 × fs = 2.5` samples would discard one of
the two peaks and yield the missing sentinel instead. -/
theorem C2_counterexample :
    (extract_ppg_specific_features [0, 1, 0, 1, 0] 5).toOption =
        some (some (2 / 5 : ℚ), some (1 : ℚ)) ∧
      pulse_interval_spec [0, 1, 0, 1, 0] 5 = (none, none) :=
  ⟨of_decide_eq_true (by with_unfolding_all rfl), of_decide_eq_true (by with_unfolding_all rfl)⟩

/-- Claim C2 (amended, confirmed): for every waveform and every sample rate
`fs ≥ 2`, the pulse-interval extractor detects beats with the truncated
minimum inter-peak distance `int(0.5 × fs) = ⌊fs / 2⌋` samples and returns the
mean of consecutive peak-index differences divided by `fs` together with the
mean peak amplitude (both missing when fewer than two beats are found); for
`fs < 2` the truncated distance is `0` and `find_peaks` raises instead. -/
theorem C2_pulse_interval (s : List ℚ) (fs : ℕ) (h : 2 ≤ fs) :
    extract_ppg_specific_features s fs = Except.ok (pulse_floor_spec s fs) :=
  pulse_ok s fs h

/-- Witness for C2 at the counterexample's waveform and sample rate. -/
theorem C2_witness :
    extract_ppg_specific_features [0, 1, 0, 1, 0] 5 =
      Except.ok (pulse_floor_spec [0, 1, 0, 1, 0] 5) :=
  C2_pulse_interval [0, 1, 0, 1, 0] 5 (by norm_num)

/-- Claim C5 (counterexample): on the waveform `[0, 2]` the normalization that
`extract_features` actually applies (`MinMaxScaler`, `(x-min)/(max-min)`)
differs from the claimed `(x-min)/(max-min+ε)` formula, and the morphology
extractor re-normalizes its already-normalized input to something different —
so normalization is neither the ε-formula nor applied exactly once. -/
theorem C5_counterexample :
    minmaxScale [0, 2] ≠ normalize_spec [0, 2] ∧
      morphSig (minmaxScale [0, 2]) ≠ minmaxScale [0, 2] :=
  ⟨of_decide_eq_true (by with_unfolding_all rfl), of_decide_eq_true (by with_unfolding_all rfl)⟩

/-- Claim C5 (amended, confirmed): `extract_features` normalizes once with the
MinMaxScaler formula `(x-min)/(max-min)` — for a non-constant waveform the
result attains minimum `0` and maximum `1` exactly — and, separately, the
morphology extractor re-normalizes its own input with the ε-formula
`(x-min)/(max-min+1e-8)` (`morphSig` coincides with the spec's
`normalize_spec`). -/
theorem C5_normalization (w : List ℚ) (h : listMin w ≠ listMax w) :
    listMin (minmaxScale w) = 0 ∧ listMax (minmaxScale w) = 1 ∧
      morphSig w = normalize_spec w := by
  have hw : w ≠ [] := by
    intro hnil; rw [hnil] at h; exact h rfl
  have hs : listMax w - listMin w ≠ 0 := sub_ne_zero.mpr (Ne.symm h)
  have hspos : 0 < listMax w - listMin w := by
    rcases lt_or_eq_of_le (listMin_le_listMax w) with hlt | heq
    · linarith
    · exact absurd heq h
  have hmonof : Monotone fun v : ℚ => (v - listMin w) / (listMax w - listMin w) := by
    intro a b hab
    exact (div_le_div_iff_of_pos_right hspos).mpr (by linarith)
  have hscale : minmaxScale w = w.map fun v => (v - listMin w) / (listMax w - listMin w) := by
    simp [minmaxScale, if_neg hs]
  refine ⟨?_, ?_, rfl⟩
  · rw [hscale, listMin_map _ (fun a b => hmonof.map_min) w hw]
    simp
  · rw [hscale, listMax_map _ (fun a b => hmonof.map_max) w hw]
    exact div_self hs

/-- Witness for C5 on the counterexample's waveform. -/
theorem C5_witness :
    listMin (minmaxScale [0, 2]) = 0 ∧ listMax (minmaxScale [0, 2]) = 1 ∧
      morphSig [0, 2] = normalize_spec [0, 2] :=
  C5_normalization [0, 2] (of_decide_eq_true (by with_unfolding_all rfl))

/-- Claim C6 (confirmed): on a strictly monotonic waveform (either direction)
no extractor detects two local maxima: the pulse-interval extractor returns
the missing sentinel for both outputs and the morphology extractor returns
all nine missing sentinels, and neither raises an exception (the pulse
extractor requires `fs ≥ 2` for scipy's distance validation; the pipeline
always hands it `fs = 100`). -/
theorem C6_monotonic_all_missing (s : List ℚ) (fs : ℕ) (hfs : 2 ≤ fs)
    (h : List.Chain' (· < ·) s ∨ List.Chain' (· > ·) s) :
    extract_ppg_specific_features s fs = Except.ok (none, none) ∧
      extract_ppg_features s fs = List.replicate 9 none := by
  have hnil : localMaxima s = [] := by
    rcases h with h | h
    · exact localMaxima_nil_of_chain_lt h
    · exact localMaxima_nil_of_chain_gt h
  have hnilm : localMaxima (morphSig s) = [] := by
    rcases h with h | h
    · exact localMaxima_nil_of_chain_lt (morphSig_chain_lt h)
    · exact localMaxima_nil_of_chain_gt (morphSig_chain_gt h)
  constructor
  · rw [pulse_ok s fs hfs, findPeaksDist_nil hnil]
    rfl
  · have hp : morphPeaks s = [] := findPeaksDist_nil hnilm 50
    simp [extract_ppg_features, hp]

/-- Witness for C6: the strictly increasing ramp. -/
theorem C6_witness :
    extract_ppg_specific_features ramp30 100 = Except.ok (none, none) ∧
      extract_ppg_features ramp30 100 = List.replicate 9 none :=
  C6_monotonic_all_missing ramp30 100 (by norm_num)
    (Or.inl (chain_lt_of_chainB (by with_unfolding_all rfl)))

/-- Claim C9 (confirmed): whenever at least two peaks and two valleys are
detected, the morphology block matches the specification's formulas: `T4 = −T1`
and `T5 = T1` (both the first-valley-to-peak span), the ejection-time ratio is
`(T4+T5)/(T1+T2+T3)` with the missing sentinel exactly when the denominator is
zero, `T2 = valleys[1] − peaks[0]` (the `T1` fallback being unreachable under
the two-valley guard), and the nine values appear in the fixed order
`[ETR, BD, HR, SVC, DVC, SMVC, DMVC, PWIR, PWAT]` (`morphology_spec`). -/
theorem C9_morphology (s : List ℚ) (fs : ℕ)
    (hp : 2 ≤ (morphPeaks s).length) (hv : 2 ≤ (morphValleys s).length) :
    morphT4 s = -(morphT1 s) ∧ morphT5 s = morphT1 s ∧
      extract_ppg_features s fs = morphology_spec s fs := by
  have h45 : morphT4 s + morphT5 s = -(morphT1 s) + morphT1 s := by
    unfold morphT4 morphT5 morphT1; ring
  refine ⟨by unfold morphT4 morphT1; ring, rfl, ?_⟩
  have hcond : ¬ ((morphPeaks s).length < 2 ∨ (morphValleys s).length < 2) := by
    push_neg
    exact ⟨hp, hv⟩
  unfold extract_ppg_features morphology_spec
  rw [if_neg hcond, if_neg hcond, h45]

/-- Witness for C9: the triangle wave, which has two peaks and two valleys. -/
theorem C9_witness :
    morphT4 tri106 = -(morphT1 tri106) ∧ morphT5 tri106 = morphT1 tri106 ∧
      extract_ppg_features tri106 100 = morphology_spec tri106 100 :=
  C9_morphology tri106 100 (of_decide_eq_true (by with_unfolding_all rfl))
    (of_decide_eq_true (by with_unfolding_all rfl))

/-- Claim C10 (confirmed): whenever the morphology block is computed (at least
2 peaks and 2 valleys detected) and `T1+T2+T3 ≠ 0`, the ejection-time-ratio
slot equals exactly `0`: `T4 = valleys[0] − peaks[0]` and
`T5 = peaks[0] − valleys[0]` always cancel, so the slot carries no information
about the waveform. -/
theorem C10_etr_always_zero (s : List ℚ) (fs : ℕ)
    (hp : 2 ≤ (morphPeaks s).length) (hv : 2 ≤ (morphValleys s).length)
    (hd : morphT1 s + morphT2 s + morphT3 s ≠ 0) :
    (extract_ppg_features s fs).getD 0 none = some 0 := by
  have hcond : ¬ ((morphPeaks s).length < 2 ∨ (morphValleys s).length < 2) := by
    push_neg
    exact ⟨hp, hv⟩
  have h45 : morphT4 s + morphT5 s = 0 := by unfold morphT4 morphT5; ring
  unfold extract_ppg_features
  rw [if_neg hcond]
  rw [List.getD_cons_zero, if_pos hd, h45]
  simp

/-- Witness for C10: on the triangle wave the denominator is `26 ≠ 0` and the
ETR slot is `0`. -/
theorem C10_witness : (extract_ppg_features tri106 100).getD 0 none = some 0 :=
  C10_etr_always_zero tri106 100 (of_decide_eq_true (by with_unfolding_all rfl))
    (of_decide_eq_true (by with_unfolding_all rfl))
    (of_decide_eq_true (by with_unfolding_all rfl))

/-- Claim C1 (counterexample): a strictly increasing 30-sample ramp satisfies
the minimum-length precondition (length ≥ 22) yet `extract_features` returns
only 10 values: the 2 pulse-interval and 9 morphology slots are the missing
sentinel, and single-row mean imputation discards those all-missing columns
instead of filling them, so the result does not have 21 slots. -/
theorem C1_counterexample :
    ¬ ∃ v, extract_features oracle0 ramp30 = Except.ok v ∧ v.length = 21 := by
  rintro ⟨v, hv, hl⟩
  have h10 : (extract_features oracle0 ramp30).toOption.map List.length = some 10 :=
    of_decide_eq_true (by with_unfolding_all rfl)
  rw [hv] at h10
  simp only [Except.toOption, Option.map, Option.some.injEq] at h10
  omega

/-- Claim C1 (amended, confirmed): for every nonempty waveform the
pre-imputation feature vector has exactly 21 slots (8 time-domain +
2 frequency-domain + 2 pulse-interval + 9 morphology); `extract_features`
succeeds and returns the imputed row, which consists of exactly the
non-missing slots in order (single-row column-mean imputation cannot repair a
missing value — sklearn discards all-missing columns) — hence the output has
21 slots iff no slot held the missing sentinel, and no output slot is ever the
missing sentinel. -/
theorem C1_feature_vector (O : Oracles) (w : List ℚ) (_hw : w ≠ []) :
    (featuresRaw O w).length = 21 ∧
      extract_features O w = Except.ok (simpleImputeRow (featuresRaw O w)) ∧
      ((simpleImputeRow (featuresRaw O w)).length = 21 ↔
        ∀ x ∈ featuresRaw O w, x ≠ none) := by
  refine ⟨featuresRaw_length O w, extract_features_eq O w, ?_⟩
  rw [show (21 : ℕ) = (featuresRaw O w).length from (featuresRaw_length O w).symm]
  exact filterMap_id_length_iff (featuresRaw O w)

/-- Witness for C1 on the ramp (its imputed row has 10 slots, matching the
all-missing pulse and morphology columns being dropped). -/
theorem C1_witness :
    (featuresRaw oracle0 ramp30).length = 21 ∧
      extract_features oracle0 ramp30 =
        Except.ok (simpleImputeRow (featuresRaw oracle0 ramp30)) ∧
      ((simpleImputeRow (featuresRaw oracle0 ramp30)).length = 21 ↔
        ∀ x ∈ featuresRaw oracle0 ramp30, x ≠ none) :=
  C1_feature_vector oracle0 ramp30 (by decide)
